import Mathlib

/-!
Verification of the churn-rate-predictor pipeline (Go source under
pkg/appcore/appcore.go and the Vercel handler package).

Strings are modelled as lists of characters; Go's float64 probabilities and
classifier scores are modelled as rationals (the code only compares them, it
never does float arithmetic on them); the two remote collaborators (the
Hugging Face inference endpoint and the Supabase store) are modelled as an
explicit oracle (`World`) supplying the outcome of each external call, and the
handler produces, besides its response, the trace of external calls it issued.
-/

/-- Go strings.Contains style check: the second list is a contiguous prefix of
the first (strings.HasPrefix). -/
def goStartsWith : List Char → List Char → Bool
  | _, [] => true
  | [], _ :: _ => false
  | a :: s, b :: t => a == b && goStartsWith s t

/-- Go strings.Contains: the second list occurs contiguously in the first. -/
def goContains : List Char → List Char → Bool
  | s, sub =>
    goStartsWith s sub ||
      match s with
      | [] => false
      | _ :: t => goContains t sub

/-- Whitespace recognised by Go's unicode.IsSpace (the characters relevant to
strings.TrimSpace on the Latin-1 range). -/
def goIsSpace (c : Char) : Bool :=
  c == ' ' || c == '\t' || c == '\n' || c == '\x0b' || c == '\x0c' || c == '\r' ||
    c == '\u0085' || c == ' '

/-- strings.TrimSpace(s) == "": every character of s is whitespace. -/
def goIsBlank (s : List Char) : Bool := s.all goIsSpace

/-- Go strings.ToLower, character-wise (ASCII range, which is all the code
compares against). -/
def toLowerStr (s : List Char) : List Char := s.map Char.toLower

/-- Go strings.ToUpper, character-wise (ASCII range). -/
def toUpperStr (s : List Char) : List Char := s.map Char.toUpper

/-- The customer_feedback row (appcore.CustomerData), without the timestamp
(never consulted by any logic under verification). -/
structure CustomerData where
  id : List Char
  nlsScore : Int
  feedback : List Char
  commentSentiment : List Char
  commentTopics : List (List Char)
deriving DecidableEq

/-- The churn_predictions row (appcore.ChurnPrediction), without the
timestamp. -/
structure ChurnPrediction where
  customerID : List Char
  churnProbability : ℚ
  reason : List Char
deriving DecidableEq

/-- appcore: negativeKeywords in PredictChurn. -/
def negativeKeywords : List (List Char) :=
  [("bad".toList), ("poor".toList), ("terrible".toList), ("unhappy".toList)]

/-- appcore.PredictChurn's keyword scan: guarded by data.Feedback != "", then
strings.Contains(strings.ToLower(feedback), keyword) over the keyword list. -/
def hasNegativeFeedback (fb : List Char) : Bool :=
  if fb = [] then false
  else negativeKeywords.any (fun kw => goContains (toLowerStr fb) kw)

/-- appcore.PredictChurn's sentiment test:
strings.ToUpper(data.CommentSentiment) == "NEGATIVE". -/
def isNegativeSentiment (s : List Char) : Bool :=
  decide (toUpperStr s = ("NEGATIVE".toList))

/-- appcore.PredictChurn: the rule-based scoring engine. The returned
CustomerID is empty; the handler fills it in afterwards. -/
def PredictChurn (data : CustomerData) : ChurnPrediction :=
  if (data.nlsScore < 5 ∧ hasNegativeFeedback data.feedback = true)
      ∨ (data.nlsScore < 3 ∧ isNegativeSentiment data.commentSentiment = true) then
    { customerID := [], churnProbability := mkRat 8 10,
      reason := ("Low NLS score and/or negative feedback/sentiment.".toList) }
  else if 8 ≤ data.nlsScore then
    { customerID := [], churnProbability := mkRat 1 10,
      reason := ("High NLS score.".toList) }
  else
    { customerID := [], churnProbability := mkRat 4 10,
      reason := ("Moderate NLS score or neutral feedback/sentiment.".toList) }

/-- Claim-side reading of the negative-keyword match: the lower-cased text
contains one of the keywords (no emptiness guard). -/
def kwMatch (fb : List Char) : Bool :=
  negativeKeywords.any (fun kw => goContains (toLowerStr fb) kw)

/-- Rule 1 of the claim's table read literally: exact string equality with
NEGATIVE in the sentiment test. -/
def rule1Exact (data : CustomerData) : Prop :=
  (data.nlsScore < 5 ∧ kwMatch data.feedback = true)
    ∨ (data.nlsScore < 3 ∧ data.commentSentiment = ("NEGATIVE".toList))

/-- Rule 1 as the code implements it: the sentiment test compares the
upper-cased label against NEGATIVE. -/
def rule1CI (data : CustomerData) : Prop :=
  (data.nlsScore < 5 ∧ kwMatch data.feedback = true)
    ∨ (data.nlsScore < 3 ∧ toUpperStr data.commentSentiment = ("NEGATIVE".toList))

instance (data : CustomerData) : Decidable (rule1Exact data) := by
  unfold rule1Exact; infer_instance

instance (data : CustomerData) : Decidable (rule1CI data) := by
  unfold rule1CI; infer_instance

/-- Outcome of the remote sentiment call, as seen by GetSentimentFromHF after
CallHuggingFaceAPI and json.Unmarshal: transport/API failure, a body that does
not parse as HFSentimentResponse, or a parsed nested list of
(label, score) pairs. -/
inductive SentimentOutcome where
  | apiError : SentimentOutcome
  | badJson : SentimentOutcome
  | parsed : List (List (List Char × ℚ)) → SentimentOutcome
deriving DecidableEq

/-- Outcome of the remote zero-shot call, as seen by GetTopicsFromHF: failure,
unparsable body, or a parsed HFZeroShotResponse (labels and scores lists). -/
inductive TopicsOutcome where
  | apiError : TopicsOutcome
  | badJson : TopicsOutcome
  | parsed : List (List Char) → List ℚ → TopicsOutcome
deriving DecidableEq

/-- External calls the handler can issue. callDeleteFeedback never occurs in
any trace the code produces; it is the vocabulary needed to state that no
compensating delete is issued. scoreStep marks the (internal, pure) invocation
of PredictChurn, so that ordering claims about the scoring step are statable. -/
inductive Event where
  | callSentiment : List Char → Event
  | callTopics : List Char → List (List Char) → Event
  | callInsertFeedback : CustomerData → Event
  | callInsertPrediction : ChurnPrediction → Event
  | callDeleteFeedback : List Char → Event
  | scoreStep : CustomerData → Event
deriving DecidableEq

/-- The loop in appcore.GetSentimentFromHF: running (highestScore, bestLabel)
pair, updated whenever a pair's score strictly exceeds the running maximum. -/
def selLoop : List (List Char × ℚ) → ℚ → List Char → List Char
  | [], _, best => best
  | p :: r, hi, best => if hi < p.2 then selLoop r p.2 p.1 else selLoop r hi best

/-- appcore.GetSentimentFromHF, returning ((label, error-flag), issued remote
calls). Blank text short-circuits to NEUTRAL without a call; all failure paths
return UNKNOWN with the error flag set; otherwise the selection loop runs over
the first inner list with initial maximum 0 and initial label NEUTRAL. -/
def GetSentimentFromHF (text : List Char) (o : SentimentOutcome) :
    (List Char × Bool) × List Event :=
  if goIsBlank text then ((("NEUTRAL".toList), false), [])
  else
    (match o with
     | .apiError => ((("UNKNOWN".toList), true))
     | .badJson => ((("UNKNOWN".toList), true))
     | .parsed resp =>
       match resp with
       | [] => ((("UNKNOWN".toList), true))
       | first :: _ =>
         match first with
         | [] => ((("UNKNOWN".toList), true))
         | p :: rest => ((selLoop (p :: rest) 0 ("NEUTRAL".toList), false)),
     [Event.callSentiment text])

/-- appcore.TopicScoreThreshold. -/
def TopicScoreThreshold : ℚ := mkRat 8 10

/-- appcore.GetTopicsFromHF, returning ((topics, error-flag), issued remote
calls). Blank text or empty candidate set short-circuits to the empty set with
no call; failures return the empty set with the error flag set (the Go code
returns a nil slice alongside the error); a parsed response is filtered to the
labels whose score strictly exceeds the threshold, provided the labels list is
non-empty and the two lists have equal length, and to the empty set otherwise
(without an error). -/
def GetTopicsFromHF (text : List Char) (cands : List (List Char))
    (o : TopicsOutcome) : (List (List Char) × Bool) × List Event :=
  if goIsBlank text ∨ cands = [] then (([], false), [])
  else
    (match o with
     | .apiError => (([], true))
     | .badJson => (([], true))
     | .parsed labels scores =>
       ((if labels ≠ [] ∧ scores.length = labels.length then
           ((labels.zip scores).filter (fun p => decide (TopicScoreThreshold < p.2))).map
             Prod.fst
         else [], false)),
     [Event.callTopics text cands])

/-- The fixed candidate-topic list the handler passes to GetTopicsFromHF. -/
def candidateTopics : List (List Char) :=
  [("service".toList), ("product quality".toList), ("pricing".toList),
   ("customer support".toList), ("speed".toList), ("ease of use".toList)]

/-- The request body after JSON decoding (appcore.ApiPredictRequest): the
rating is a pointer in Go, hence optional here. -/
structure ApiPredictRequest where
  nlsScore : Option Int
  feedbackText : List Char
deriving DecidableEq

/-- The 200-response body (appcore.ApiResponse). -/
structure ApiResponse where
  customerID : List Char
  churnProbability : ℚ
  reason : List Char
  commentSentiment : List Char
  commentTopics : List (List Char)
deriving DecidableEq

/-- What the handler sends back: RespondWithJSON on success, or
RespondWithError with an HTTP status and message. -/
inductive HandlerResponse where
  | ok : ApiResponse → HandlerResponse
  | err : Nat → List Char → HandlerResponse
deriving DecidableEq

/-- Oracle for one request's external collaborators: the two inference-call
outcomes, the feedback insert's outcome (the store-assigned identifier on
success), and whether the prediction insert succeeds. -/
structure World where
  sentimentOutcome : SentimentOutcome
  topicsOutcome : TopicsOutcome
  feedbackInsert : Option (List Char)
  predictionInsert : Bool
deriving DecidableEq

/-- The tail of the Vercel handler PredictHandler after the enrichment calls:
StoreCustomerData, PredictChurn on the stored record, and StoreChurnPrediction
with the store-assigned identifier attached, producing the response and the
storage part of the call trace. -/
def handlerTail (fb : List Char) (nls : Int) (sentiment : List Char)
    (topics : List (List Char)) (enrichEvents : List Event)
    (fi : Option (List Char)) (pi : Bool) : HandlerResponse × List Event :=
  let customerData : CustomerData :=
    { id := [], nlsScore := nls, feedback := fb,
      commentSentiment := sentiment, commentTopics := topics }
  match fi with
  | none =>
    (.err 500 ("Failed to store customer data.".toList),
     enrichEvents ++ [Event.callInsertFeedback customerData])
  | some customerID =>
    let dataWithID := { customerData with id := customerID }
    let churnPrediction :=
      { PredictChurn dataWithID with customerID := customerID }
    let events2 := enrichEvents ++
      [Event.callInsertFeedback customerData, Event.scoreStep dataWithID,
       Event.callInsertPrediction churnPrediction]
    if pi then
      (.ok { customerID := customerID,
             churnProbability := churnPrediction.churnProbability,
             reason := churnPrediction.reason,
             commentSentiment := sentiment, commentTopics := topics },
       events2)
    else
      (.err 500 ("Failed to store churn prediction.".toList), events2)

/-- The Vercel handler PredictHandler (handler package), from the point where
the body has been decoded: validation, the two enrichment calls (degrading on
failure), then the storage-and-scoring tail. Returns the response and the
trace of issued calls, in order. -/
def PredictHandler (req : ApiPredictRequest) (w : World) :
    HandlerResponse × List Event :=
  match req.nlsScore with
  | none => (.err 400 ("NLS score is required.".toList), [])
  | some nls =>
    if nls < 0 ∨ 10 < nls then
      (.err 400 ("NLS score must be between 0 and 10.".toList), [])
    else
      let sres := GetSentimentFromHF req.feedbackText w.sentimentOutcome
      let sentiment := if sres.1.2 = true then ("UNKNOWN".toList) else sres.1.1
      let tres := GetTopicsFromHF req.feedbackText candidateTopics w.topicsOutcome
      handlerTail req.feedbackText nls sentiment tres.1.1 (sres.2 ++ tres.2)
        w.feedbackInsert w.predictionInsert

/-- The storage-layer state: the identifiers of the customer_feedback rows and
the churn_predictions rows (schema.sql). -/
structure DBState where
  feedbackIDs : List (List Char)
  predictions : List ChurnPrediction
deriving DecidableEq

/-- Referential integrity: every prediction's customer_feedback_id points to
an existing feedback row. -/
def refIntact (db : DBState) : Prop :=
  ∀ p ∈ db.predictions, p.customerID ∈ db.feedbackIDs

/-- Deleting a feedback row per schema.sql: the foreign key on
churn_predictions.customer_feedback_id carries ON DELETE CASCADE, so every
prediction referencing the deleted row is deleted with it. -/
def deleteFeedbackCascade (db : DBState) (fid : List Char) : DBState :=
  { feedbackIDs := db.feedbackIDs.filter (fun i => decide (i ≠ fid)),
    predictions := db.predictions.filter (fun p => decide (p.customerID ≠ fid)) }

/-- Effect of one traced call on the store, under the given oracle: the
feedback insert appends the assigned identifier when it succeeds, the
prediction insert appends the row when it succeeds, a feedback delete cascades,
and inference calls and the scoring step do not touch the store. -/
def applyEvent (w : World) (db : DBState) : Event → DBState
  | .callInsertFeedback _ =>
    match w.feedbackInsert with
    | some cid => { db with feedbackIDs := db.feedbackIDs ++ [cid] }
    | none => db
  | .callInsertPrediction p =>
    if w.predictionInsert then { db with predictions := db.predictions ++ [p] }
    else db
  | .callDeleteFeedback fid => deleteFeedbackCascade db fid
  | _ => db

/-- Replay a trace of calls against the store. -/
def runTrace (w : World) (db : DBState) (t : List Event) : DBState :=
  t.foldl (applyEvent w) db

/-- Maximum of the scores of a pair list, starting from a. -/
def mScore (a : ℚ) : List (List Char × ℚ) → ℚ
  | [] => a
  | p :: r => max p.2 (mScore a r)

/-- Modelled from the amended claim's words: the label of the first pair whose
score attains the maximum, provided that maximum is strictly positive, and the
default NEUTRAL otherwise (so among pairs with strictly positive score, the
strictly highest score wins and ties keep the first-seen label). -/
def firstBest (pairs : List (List Char × ℚ)) : List Char :=
  if mScore 0 pairs ≤ 0 then ("NEUTRAL".toList)
  else (pairs.find? fun p => decide (mScore 0 pairs ≤ p.2)).elim
    ("NEUTRAL".toList) fun p => p.1

/-- Predicate satisfied by every event the handler can emit: inference calls,
the two inserts and the scoring step; every topics call carries the fixed
candidate set, and no feedback delete is ever issued. -/
def eventOk : Event → Prop
  | .callTopics _ c => c = candidateTopics
  | .callDeleteFeedback _ => False
  | _ => True

/-- The customer_feedback row the handler builds before storing: rating and
raw text from the request, sentiment degraded to UNKNOWN when the sentiment
query reported an error, topics as returned by the topics query. -/
def handlerCustomerData (req : ApiPredictRequest) (w : World) (nls : Int) :
    CustomerData :=
  { id := [], nlsScore := nls, feedback := req.feedbackText,
    commentSentiment :=
      if (GetSentimentFromHF req.feedbackText w.sentimentOutcome).1.2 = true
      then ("UNKNOWN".toList)
      else (GetSentimentFromHF req.feedbackText w.sentimentOutcome).1.1,
    commentTopics :=
      (GetTopicsFromHF req.feedbackText candidateTopics w.topicsOutcome).1.1 }

/-- Recogniser for feedback-insert events. -/
def isInsertFeedbackEvent : Event → Bool
  | .callInsertFeedback _ => true
  | _ => false

/-- Recogniser for scoring-step events. -/
def isScoreEvent : Event → Bool
  | .scoreStep _ => true
  | _ => false

/-- The emptiness guard in PredictChurn is redundant: an empty text contains
no (non-empty) keyword. -/
theorem hasNeg_eq_kwMatch (fb : List Char) : hasNegativeFeedback fb = kwMatch fb := by
  cases fb with
  | nil => decide
  | cons c rest => simp [hasNegativeFeedback, kwMatch]

/-- The probability constants of the scoring engine, written as their decimal
values. -/
theorem probability_constants :
    mkRat 1 10 = 0.1 ∧ mkRat 4 10 = 0.4 ∧ mkRat 8 10 = 0.8 ∧
      TopicScoreThreshold = 0.8 := by
  refine ⟨by norm_num, by norm_num, by norm_num, ?_⟩
  rw [TopicScoreThreshold]; norm_num

theorem le_mScore (a : ℚ) (l : List (List Char × ℚ)) : a ≤ mScore a l := by
  induction l with
  | nil => exact le_refl a
  | cons p r ih => exact le_trans ih (le_max_right _ _)

theorem mScore_absorb (a s : ℚ) (l : List (List Char × ℚ)) (h : a ≤ s) :
    mScore s l = max s (mScore a l) := by
  induction l with
  | nil => simp [mScore, max_eq_left h]
  | cons p r ih => simp only [mScore, ih, max_left_comm]

theorem mScore_attained (a : ℚ) (l : List (List Char × ℚ)) :
    mScore a l = a ∨ ∃ p ∈ l, mScore a l = p.2 := by
  induction l with
  | nil => exact Or.inl rfl
  | cons p r ih =>
    rcases le_total (mScore a r) p.2 with h | h
    · exact Or.inr ⟨p, List.mem_cons_self p r, max_eq_left h⟩
    · rw [mScore, max_eq_right h]
      rcases ih with h1 | ⟨q, hq, h2⟩
      · exact Or.inl h1
      · exact Or.inr ⟨q, List.mem_cons_of_mem p hq, h2⟩

/-- The selection loop never changes its label when no score strictly exceeds
the running maximum. -/
theorem selLoop_const (l : List (List Char × ℚ)) :
    ∀ (hi : ℚ) (best : List Char), (∀ p ∈ l, p.2 ≤ hi) →
      selLoop l hi best = best := by
  induction l with
  | nil => intro hi best _; rfl
  | cons p r ih =>
    intro hi best h
    have hp : ¬ hi < p.2 := not_lt.mpr (h p (List.mem_cons_self p r))
    rw [selLoop, if_neg hp]
    exact ih hi best (fun q hq => h q (List.mem_cons_of_mem p hq))

/-- Characterisation of the selection loop: it keeps the initial label when no
score strictly exceeds the initial maximum, and otherwise returns the label of
the first pair attaining the overall maximum score. -/
theorem selLoop_spec (l : List (List Char × ℚ)) :
    ∀ (hi : ℚ) (best : List Char),
      selLoop l hi best =
        if mScore hi l ≤ hi then best
        else (l.find? fun p => decide (mScore hi l ≤ p.2)).elim best fun p => p.1 := by
  induction l with
  | nil => intro hi best; simp [selLoop, mScore]
  | cons p r ih =>
    intro hi best
    by_cases hps : hi < p.2
    · rw [selLoop, if_pos hps, ih p.2 p.1]
      have habs : mScore p.2 r = mScore hi (p :: r) := by
        rw [mScore, mScore_absorb hi p.2 r (le_of_lt hps)]
      have hmhi : ¬ mScore hi (p :: r) ≤ hi :=
        not_le.mpr (lt_of_lt_of_le hps (by rw [mScore]; exact le_max_left _ _))
      rw [habs, if_neg hmhi]
      by_cases hmp : mScore hi (p :: r) ≤ p.2
      · have hfind : (p :: r).find? (fun q => decide (mScore hi (p :: r) ≤ q.2)) = some p := by
          rw [List.find?_cons, decide_eq_true hmp]
        rw [if_pos hmp, hfind]
        rfl
      · have hfind : (p :: r).find? (fun q => decide (mScore hi (p :: r) ≤ q.2)) =
            r.find? (fun q => decide (mScore hi (p :: r) ≤ q.2)) := by
          rw [List.find?_cons, decide_eq_false hmp]
        rw [if_neg hmp, hfind]
        have hm : mScore hi (p :: r) = mScore hi r := by
          rcases max_cases p.2 (mScore hi r) with ⟨he, _⟩ | ⟨he, _⟩
          · exact absurd (le_of_eq (by rw [mScore, he])) hmp
          · rw [mScore, he]
        have hex : ∃ q ∈ r, (fun q => decide (mScore hi (p :: r) ≤ q.2)) q = true := by
          rcases mScore_attained hi r with h1 | ⟨q, hq, h2⟩
          · exfalso
            apply hmp
            rw [hm, h1]
            exact le_of_lt hps
          · exact ⟨q, hq, decide_eq_true (by rw [hm, h2])⟩
        have hsome : (r.find? fun q => decide (mScore hi (p :: r) ≤ q.2)).isSome :=
          List.find?_isSome.mpr hex
        rcases Option.isSome_iff_exists.mp hsome with ⟨y, hy⟩
        rw [hy]
        rfl
    · rw [selLoop, if_neg hps, ih hi best]
      have hm : mScore hi (p :: r) = mScore hi r := by
        rw [mScore]
        exact max_eq_right (le_trans (not_lt.mp hps) (le_mScore hi r))
      by_cases hmle : mScore hi r ≤ hi
      · rw [if_pos hmle, hm, if_pos hmle]
      · have hmp : ¬ mScore hi (p :: r) ≤ p.2 :=
          fun hc => hmle (le_trans (le_of_eq hm.symm) (le_trans hc (not_lt.mp hps)))
        have hfind : (p :: r).find? (fun q => decide (mScore hi (p :: r) ≤ q.2)) =
            r.find? (fun q => decide (mScore hi (p :: r) ≤ q.2)) := by
          rw [List.find?_cons, decide_eq_false hmp]
        rw [if_neg hmle, hm, if_neg hmle, ← hm, hfind, hm]

/-- The code's selection loop computes exactly firstBest. -/
theorem selLoop_eq_firstBest (pairs : List (List Char × ℚ)) :
    selLoop pairs 0 ("NEUTRAL".toList) = firstBest pairs := by
  rw [selLoop_spec, firstBest]

/-- Claim C1 fails as stated: with rating 2, empty feedback and sentiment
label negative (lower case), rule 1 read with exact label equality does not
match and rating 2 is below 8, so the stated table yields 0.4; the code
returns 0.8, because its sentiment test upper-cases the label first. -/
theorem C1_counterexample :
    ¬ rule1Exact ⟨[], 2, [], ("negative".toList), []⟩
    ∧ (2 : Int) < 8
    ∧ (PredictChurn ⟨[], 2, [], ("negative".toList), []⟩).churnProbability = mkRat 8 10
    ∧ mkRat 8 10 ≠ mkRat 4 10 := by decide

/-- Claim C1 (amended: the sentiment test of rule 1 compares the upper-cased
label against NEGATIVE, i.e. case-insensitively): for every rating in [0,10]
and every feedback text and sentiment label, PredictChurn returns one of
0.1, 0.4, 0.8 with the matching reason string, first match wins over the
ordered rules, and no other probability is produced. -/
theorem C1_scoring_table (data : CustomerData)
    (_h0 : 0 ≤ data.nlsScore) (_h10 : data.nlsScore ≤ 10) :
    ((PredictChurn data).churnProbability = mkRat 1 10
      ∨ (PredictChurn data).churnProbability = mkRat 4 10
      ∨ (PredictChurn data).churnProbability = mkRat 8 10)
    ∧ (rule1CI data →
        (PredictChurn data).churnProbability = mkRat 8 10
        ∧ (PredictChurn data).reason
            = ("Low NLS score and/or negative feedback/sentiment.".toList))
    ∧ (¬ rule1CI data → 8 ≤ data.nlsScore →
        (PredictChurn data).churnProbability = mkRat 1 10
        ∧ (PredictChurn data).reason = ("High NLS score.".toList))
    ∧ (¬ rule1CI data → data.nlsScore < 8 →
        (PredictChurn data).churnProbability = mkRat 4 10
        ∧ (PredictChurn data).reason
            = ("Moderate NLS score or neutral feedback/sentiment.".toList)) := by
  have hcond : ((data.nlsScore < 5 ∧ hasNegativeFeedback data.feedback = true)
      ∨ (data.nlsScore < 3 ∧ isNegativeSentiment data.commentSentiment = true))
      ↔ rule1CI data := by
    rw [hasNeg_eq_kwMatch]
    unfold rule1CI isNegativeSentiment
    simp
  by_cases hr : rule1CI data
  · have he : PredictChurn data =
        { customerID := [], churnProbability := mkRat 8 10,
          reason := ("Low NLS score and/or negative feedback/sentiment.".toList) } := by
      rw [PredictChurn, if_pos (hcond.mpr hr)]
    exact ⟨Or.inr (Or.inr (by rw [he])),
      fun _ => ⟨by rw [he], by rw [he]⟩,
      fun hn _ => absurd hr hn, fun hn _ => absurd hr hn⟩
  · have hnc : ¬ ((data.nlsScore < 5 ∧ hasNegativeFeedback data.feedback = true)
        ∨ (data.nlsScore < 3 ∧ isNegativeSentiment data.commentSentiment = true)) :=
      fun hc => hr (hcond.mp hc)
    by_cases h8 : 8 ≤ data.nlsScore
    · have he : PredictChurn data =
          { customerID := [], churnProbability := mkRat 1 10,
            reason := ("High NLS score.".toList) } := by
        rw [PredictChurn, if_neg hnc, if_pos h8]
      exact ⟨Or.inl (by rw [he]), fun hc => absurd hc hr,
        fun _ _ => ⟨by rw [he], by rw [he]⟩,
        fun _ hlt => absurd h8 (not_le.mpr hlt)⟩
    · have he : PredictChurn data =
          { customerID := [], churnProbability := mkRat 4 10,
            reason := ("Moderate NLS score or neutral feedback/sentiment.".toList) } := by
        rw [PredictChurn, if_neg hnc, if_neg h8]
      exact ⟨Or.inr (Or.inl (by rw [he])), fun hc => absurd hc hr,
        fun _ h8p => absurd h8p h8,
        fun _ _ => ⟨by rw [he], by rw [he]⟩⟩

/-- Witness for C1's amended theorem at rating 2, empty feedback, sentiment
negative (rule 1 fires through the case-insensitive sentiment test). -/
theorem C1_scoring_table_witness :
    (PredictChurn ⟨[], 2, [], ("negative".toList), []⟩).churnProbability
      = mkRat 8 10 := by
  have h := C1_scoring_table ⟨[], 2, [], ("negative".toList), []⟩
    (by decide) (by decide)
  exact (h.2.1 (Or.inr ⟨by decide, by decide⟩)).1

/-- Claim C10: PredictChurn's negative-sentiment test is case-insensitive ─
any sentiment label whose upper-casing equals NEGATIVE satisfies the
rating < 3 branch of rule 1. -/
theorem C10_case_insensitive (data : CustomerData) (h3 : data.nlsScore < 3)
    (hs : toUpperStr data.commentSentiment = ("NEGATIVE".toList)) :
    (PredictChurn data).churnProbability = mkRat 8 10
    ∧ (PredictChurn data).reason
        = ("Low NLS score and/or negative feedback/sentiment.".toList) := by
  have hcond : (data.nlsScore < 5 ∧ hasNegativeFeedback data.feedback = true)
      ∨ (data.nlsScore < 3 ∧ isNegativeSentiment data.commentSentiment = true) :=
    Or.inr ⟨h3, by unfold isNegativeSentiment; exact decide_eq_true hs⟩
  rw [PredictChurn, if_pos hcond]
  exact ⟨rfl, rfl⟩

/-- Witness for C10 at rating 2 with the mixed-casing label Negative. -/
theorem C10_witness :
    (PredictChurn ⟨[], 2, [], ("Negative".toList), []⟩).churnProbability
      = mkRat 8 10 :=
  (C10_case_insensitive ⟨[], 2, [], ("Negative".toList), []⟩
    (by decide) (by decide)).1

/-- Claim C9: when the classifier call succeeds with a non-empty pair list
whose scores are all at most 0, GetSentimentFromHF returns the default
NEUTRAL (and no error), not any of the returned labels. -/
theorem C9_nonpositive_scores (text : List Char) (pairs : List (List Char × ℚ))
    (rest : List (List (List Char × ℚ))) (hb : goIsBlank text = false)
    (hne : pairs ≠ []) (hnp : ∀ p ∈ pairs, p.2 ≤ 0) :
    (GetSentimentFromHF text (.parsed (pairs :: rest))).1
      = (("NEUTRAL".toList), false) := by
  cases pairs with
  | nil => exact absurd rfl hne
  | cons p r =>
    simp only [GetSentimentFromHF, hb, Bool.false_eq_true, if_false]
    rw [selLoop_const (p :: r) 0 _ hnp]

/-- Witness for C9 with a single pair scored exactly 0. -/
theorem C9_witness :
    (GetSentimentFromHF ("hi".toList) (.parsed [[(("NEGATIVE".toList), 0)]])).1
      = (("NEUTRAL".toList), false) :=
  C9_nonpositive_scores ("hi".toList) [(("NEGATIVE".toList), 0)] []
    (by decide) (by decide) (by decide)

/-- Claim C6 fails as stated: with the single returned pair (POSITIVE, 0),
the label with the strictly highest score is POSITIVE, yet the function
returns NEUTRAL, because only strictly positive scores can win against the
initial running maximum of 0. -/
theorem C6_counterexample :
    (GetSentimentFromHF ("x".toList) (.parsed [[(("POSITIVE".toList), 0)]])).1.1
        = ("NEUTRAL".toList)
    ∧ ("NEUTRAL".toList) ≠ ("POSITIVE".toList) := by decide

/-- Claim C6 (amended: the highest-score selection applies among pairs with
strictly positive score; when no score is strictly positive the default
NEUTRAL is returned): blank text yields NEUTRAL without a remote call; a
non-blank text issues exactly one remote call; transport error, malformed
response or empty result set yields UNKNOWN with the error flag; a non-empty
result yields the first-seen label with the strictly highest (positive)
score. -/
theorem C6_sentiment (text : List Char) (o : SentimentOutcome) :
    (goIsBlank text = true →
      GetSentimentFromHF text o = ((("NEUTRAL".toList), false), []))
    ∧ (goIsBlank text = false →
        (GetSentimentFromHF text o).2 = [Event.callSentiment text]
        ∧ ((o = .apiError ∨ o = .badJson ∨ o = .parsed []
              ∨ ∃ r, o = .parsed ([] :: r)) →
            (GetSentimentFromHF text o).1 = (("UNKNOWN".toList), true))
        ∧ (∀ pairs rest, o = .parsed (pairs :: rest) → pairs ≠ [] →
            (GetSentimentFromHF text o).1 = (firstBest pairs, false))) := by
  constructor
  · intro hb
    simp [GetSentimentFromHF, hb]
  · intro hb
    refine ⟨?_, ?_, ?_⟩
    · cases o with
      | apiError => simp [GetSentimentFromHF, hb]
      | badJson => simp [GetSentimentFromHF, hb]
      | parsed resp =>
        cases resp with
        | nil => simp [GetSentimentFromHF, hb]
        | cons first r =>
          cases first with
          | nil => simp [GetSentimentFromHF, hb]
          | cons p rest => simp [GetSentimentFromHF, hb]
    · rintro (rfl | rfl | rfl | ⟨r, rfl⟩) <;> simp [GetSentimentFromHF, hb]
    · rintro pairs rest rfl hne
      cases pairs with
      | nil => exact absurd rfl hne
      | cons p r =>
        simp only [GetSentimentFromHF, hb, Bool.false_eq_true, if_false]
        rw [selLoop_eq_firstBest]

/-- Every event of every handler trace satisfies eventOk. -/
theorem handler_events (req : ApiPredictRequest) (w : World) :
    ∀ e ∈ (PredictHandler req w).2, eventOk e := by
  obtain ⟨ns, fb⟩ := req
  obtain ⟨so, tpo, fi, pi⟩ := w
  cases ns with
  | none => simp [PredictHandler, handlerTail]
  | some nls =>
    by_cases hr : nls < 0 ∨ 10 < nls
    · simp [PredictHandler, handlerTail, hr]
    · by_cases hb : goIsBlank fb <;>
        cases fi <;> cases pi <;>
          simp [PredictHandler, handlerTail, hr, hb, GetSentimentFromHF, GetTopicsFromHF,
            candidateTopics, eventOk, List.forall_mem_cons]

/-- A sentiment query issues no call on blank text and exactly one otherwise. -/
theorem sentiment_events (text : List Char) (o : SentimentOutcome) :
    (GetSentimentFromHF text o).2 = []
    ∨ (GetSentimentFromHF text o).2 = [Event.callSentiment text] := by
  by_cases hb : goIsBlank text <;> simp [GetSentimentFromHF, hb]

/-- A topics query issues no call on blank text or empty candidates and
exactly one otherwise. -/
theorem topics_events (text : List Char) (cands : List (List Char))
    (o : TopicsOutcome) :
    (GetTopicsFromHF text cands o).2 = []
    ∨ (GetTopicsFromHF text cands o).2 = [Event.callTopics text cands] := by
  by_cases hb : goIsBlank text ∨ cands = [] <;> simp [GetTopicsFromHF, hb]

/-- On a valid rating with a successful feedback insert, the handler's trace
is: the enrichment calls, then the feedback insert, then the scoring step on
the stored record, then the prediction insert carrying the store-assigned
identifier ─ regardless of whether the prediction insert succeeds. -/
theorem handler_success_trace (req : ApiPredictRequest) (w : World) (nls : Int)
    (cid : List Char) (h1 : req.nlsScore = some nls)
    (h2 : ¬ (nls < 0 ∨ 10 < nls)) (h3 : w.feedbackInsert = some cid) :
    (PredictHandler req w).2
      = (GetSentimentFromHF req.feedbackText w.sentimentOutcome).2
        ++ (GetTopicsFromHF req.feedbackText candidateTopics w.topicsOutcome).2
        ++ [Event.callInsertFeedback (handlerCustomerData req w nls),
            Event.scoreStep { handlerCustomerData req w nls with id := cid },
            Event.callInsertPrediction
              { PredictChurn { handlerCustomerData req w nls with id := cid }
                  with customerID := cid }] := by
  obtain ⟨ns, fb⟩ := req
  obtain ⟨so, tpo, fi, pi⟩ := w
  simp only at h1 h3
  subst h1
  subst h3
  cases pi <;> simp [PredictHandler, handlerTail, h2, handlerCustomerData]

/-- Witness for C6's amended theorem: two pairs, the first-seen higher score
wins. -/
theorem C6_sentiment_witness :
    (GetSentimentFromHF ("x".toList)
        (.parsed [[(("NEGATIVE".toList), mkRat 6 10),
                   (("POSITIVE".toList), mkRat 4 10)]])).1
      = (("NEGATIVE".toList), false) := by
  have h := ((C6_sentiment ("x".toList)
      (.parsed [[(("NEGATIVE".toList), mkRat 6 10),
                 (("POSITIVE".toList), mkRat 4 10)]])).2 (by decide)).2.2
    [(("NEGATIVE".toList), mkRat 6 10), (("POSITIVE".toList), mkRat 4 10)] []
    rfl (by decide)
  rw [h]
  decide

/-- Claim C5: an absent rating is rejected with 400 and the message NLS score
is required; a present rating outside [0,10] is rejected with 400 and the
message NLS score must be between 0 and 10; in both cases the trace is empty,
so no enrichment or storage call happens before rejection. -/
theorem C5_validation (req : ApiPredictRequest) (w : World) :
    (req.nlsScore = none →
      PredictHandler req w = (.err 400 ("NLS score is required.".toList), []))
    ∧ (∀ nls, req.nlsScore = some nls → (nls < 0 ∨ 10 < nls) →
      PredictHandler req w
        = (.err 400 ("NLS score must be between 0 and 10.".toList), [])) := by
  obtain ⟨ns, fb⟩ := req
  cases ns with
  | none =>
    refine ⟨fun _ => ?_, fun nls h => absurd h (by simp)⟩
    simp [PredictHandler, handlerTail]
  | some m =>
    refine ⟨fun h => Option.noConfusion h, fun nls h hrange => ?_⟩
    have hm : m = nls := Option.some.inj h
    subst hm
    simp [PredictHandler, handlerTail, hrange]

/-- Witness for C5 on a request with no rating and one with rating 11. -/
theorem C5_witness :
    PredictHandler ⟨none, []⟩ ⟨.apiError, .apiError, none, false⟩
        = (.err 400 ("NLS score is required.".toList), [])
    ∧ PredictHandler ⟨some 11, []⟩ ⟨.apiError, .apiError, none, false⟩
        = (.err 400 ("NLS score must be between 0 and 10.".toList), []) :=
  ⟨(C5_validation ⟨none, []⟩ ⟨.apiError, .apiError, none, false⟩).1 rfl,
   (C5_validation ⟨some 11, []⟩ ⟨.apiError, .apiError, none, false⟩).2 11 rfl
     (by decide)⟩

/-- Claim C7: blank text or an empty candidate set yields an empty topic set
with no remote call; otherwise exactly one call is issued; errors yield the
empty set; a well-formed response keeps exactly the labels whose score
strictly exceeds the 0.8 threshold; and the handler always passes the fixed
candidate set. -/
theorem C7_topic_extraction (text : List Char) (cands : List (List Char))
    (o : TopicsOutcome) :
    ((goIsBlank text = true ∨ cands = []) →
        GetTopicsFromHF text cands o = (([], false), []))
    ∧ (goIsBlank text = false → cands ≠ [] →
        (GetTopicsFromHF text cands o).2 = [Event.callTopics text cands]
        ∧ ((o = .apiError ∨ o = .badJson) →
            (GetTopicsFromHF text cands o).1 = ([], true))
        ∧ (∀ labels scores, o = .parsed labels scores → labels ≠ [] →
            scores.length = labels.length →
            (GetTopicsFromHF text cands o).1
              = (((labels.zip scores).filter
                    (fun p => decide (TopicScoreThreshold < p.2))).map Prod.fst,
                 false)))
    ∧ (∀ req w t c, Event.callTopics t c ∈ (PredictHandler req w).2 →
        c = candidateTopics) := by
  refine ⟨?_, ?_, ?_⟩
  · intro h
    unfold GetTopicsFromHF
    rw [if_pos h]
  · intro hb hc
    have hcond : ¬ (goIsBlank text = true ∨ cands = []) := by simp [hb, hc]
    refine ⟨?_, ?_, ?_⟩
    · unfold GetTopicsFromHF
      rw [if_neg hcond]
    · rintro (rfl | rfl) <;> (unfold GetTopicsFromHF; rw [if_neg hcond])
    · rintro labels scores rfl hl hs
      unfold GetTopicsFromHF
      rw [if_neg hcond]
      simp [hl, hs]
  · intro req w t c h
    have hok := handler_events req w _ h
    simpa [eventOk] using hok

/-- Witness for C7: two returned labels, only the one scored 0.9 survives the
0.8 threshold. -/
theorem C7_witness :
    (GetTopicsFromHF ("bad service".toList) candidateTopics
        (.parsed [("service".toList), ("pricing".toList)]
          [mkRat 9 10, mkRat 5 10])).1
      = ([("service".toList)], false) := by
  have h := ((C7_topic_extraction ("bad service".toList) candidateTopics
      (.parsed [("service".toList), ("pricing".toList)]
        [mkRat 9 10, mkRat 5 10])).2.1 (by decide) (by decide)).2.2
    [("service".toList), ("pricing".toList)] [mkRat 9 10, mkRat 5 10] rfl
    (by decide) (by decide)
  rw [h]
  decide

/-- Claim C2 fails as stated: on a concrete valid request the handler's trace
places the feedback insert at position 2 and the scoring step at position 3
(of 5), so scoring runs after the feedback insert, not before it as the
claimed order Validator, Enrichment, ScoringEngine, insertFeedback,
insertPrediction requires. -/
theorem C2_counterexample :
    ((PredictHandler ⟨some 5, ("ok".toList)⟩
        ⟨.apiError, .apiError, some ("f1".toList), true⟩).2.findIdx
          isInsertFeedbackEvent = 2)
    ∧ ((PredictHandler ⟨some 5, ("ok".toList)⟩
        ⟨.apiError, .apiError, some ("f1".toList), true⟩).2.findIdx
          isScoreEvent = 3)
    ∧ (PredictHandler ⟨some 5, ("ok".toList)⟩
        ⟨.apiError, .apiError, some ("f1".toList), true⟩).2.length = 5 := by
  decide

/-- Claim C2 (amended: within one request the order is validation, both
enrichment sub-operations, insertFeedback, then the ScoringEngine, then
insertPrediction with the feedback record's identifier attached, then
response assembly; in particular the scoring step runs after the feedback
insert and before the prediction insert, and both enrichment sub-operations
complete before the feedback insert). -/
theorem C2_pipeline_order (req : ApiPredictRequest) (w : World) (nls : Int)
    (cid : List Char) (h1 : req.nlsScore = some nls)
    (h2 : ¬ (nls < 0 ∨ 10 < nls)) (h3 : w.feedbackInsert = some cid) :
    ((PredictHandler req w).2
      = (GetSentimentFromHF req.feedbackText w.sentimentOutcome).2
        ++ (GetTopicsFromHF req.feedbackText candidateTopics w.topicsOutcome).2
        ++ [Event.callInsertFeedback (handlerCustomerData req w nls),
            Event.scoreStep { handlerCustomerData req w nls with id := cid },
            Event.callInsertPrediction
              { PredictChurn { handlerCustomerData req w nls with id := cid }
                  with customerID := cid }])
    ∧ (w.predictionInsert = true →
        (PredictHandler req w).1
          = .ok { customerID := cid,
                  churnProbability :=
                    (PredictChurn { handlerCustomerData req w nls
                        with id := cid }).churnProbability,
                  reason :=
                    (PredictChurn { handlerCustomerData req w nls
                        with id := cid }).reason,
                  commentSentiment :=
                    (handlerCustomerData req w nls).commentSentiment,
                  commentTopics :=
                    (handlerCustomerData req w nls).commentTopics }) := by
  refine ⟨handler_success_trace req w nls cid h1 h2 h3, ?_⟩
  intro hpi
  obtain ⟨ns, fb⟩ := req
  obtain ⟨so, tpo, fi, pi⟩ := w
  simp only at h1 h3 hpi
  subst h1
  subst h3
  subst hpi
  simp [PredictHandler, handlerTail, h2, handlerCustomerData]

/-- Witness for C2's amended theorem at a concrete request: the full trace,
evaluated. -/
theorem C2_pipeline_order_witness :
    (PredictHandler ⟨some 5, ("ok".toList)⟩
        ⟨.apiError, .apiError, some ("f1".toList), true⟩).2
      = [Event.callSentiment ("ok".toList),
         Event.callTopics ("ok".toList) candidateTopics,
         Event.callInsertFeedback
           ⟨[], 5, ("ok".toList), ("UNKNOWN".toList), []⟩,
         Event.scoreStep
           ⟨("f1".toList), 5, ("ok".toList), ("UNKNOWN".toList), []⟩,
         Event.callInsertPrediction
           ⟨("f1".toList), mkRat 4 10,
            ("Moderate NLS score or neutral feedback/sentiment.".toList)⟩] := by
  have h := (C2_pipeline_order ⟨some 5, ("ok".toList)⟩
      ⟨.apiError, .apiError, some ("f1".toList), true⟩ 5 ("f1".toList)
      rfl (by decide) rfl).1
  rw [h]
  decide

/-- Inference calls do not touch the store. -/
theorem foldl_sentiment_noop (w : World) (text : List Char)
    (o : SentimentOutcome) (db : DBState) :
    List.foldl (applyEvent w) db (GetSentimentFromHF text o).2 = db := by
  rcases sentiment_events text o with he | he <;> rw [he] <;> rfl

/-- Topics calls do not touch the store. -/
theorem foldl_topics_noop (w : World) (text : List Char)
    (cands : List (List Char)) (o : TopicsOutcome) (db : DBState) :
    List.foldl (applyEvent w) db (GetTopicsFromHF text cands o).2 = db := by
  rcases topics_events text cands o with he | he <;> rw [he] <;> rfl

/-- Replaying a successful request's trace on any store state: the assigned
feedback identifier is appended, and the prediction row (whose parent
reference is that identifier) is appended exactly when the prediction insert
succeeds. -/
theorem runTrace_success (req : ApiPredictRequest) (w : World) (nls : Int)
    (cid : List Char) (h1 : req.nlsScore = some nls)
    (h2 : ¬ (nls < 0 ∨ 10 < nls)) (h3 : w.feedbackInsert = some cid)
    (db : DBState) :
    runTrace w db (PredictHandler req w).2
      = { feedbackIDs := db.feedbackIDs ++ [cid],
          predictions := db.predictions ++
            (if w.predictionInsert then
              [{ PredictChurn { handlerCustomerData req w nls with id := cid }
                  with customerID := cid }]
             else []) } := by
  rw [handler_success_trace req w nls cid h1 h2 h3, runTrace,
    List.foldl_append, List.foldl_append, foldl_sentiment_noop,
    foldl_topics_noop]
  cases hpi : w.predictionInsert <;>
    simp [applyEvent, h3, hpi, deleteFeedbackCascade]

/-- Claim C3: every prediction insert of a successful request carries exactly
the identifier returned by that request's feedback insert; the prediction
insert occurs strictly after the feedback insert in the trace; replaying the
trace preserves referential integrity of the store; and a cascade delete
(schema.sql) also preserves it, so a prediction never exists without its
parent. -/
theorem C3_parent_link (req : ApiPredictRequest) (w : World) (nls : Int)
    (cid : List Char) (h1 : req.nlsScore = some nls)
    (h2 : ¬ (nls < 0 ∨ 10 < nls)) (h3 : w.feedbackInsert = some cid) :
    (∀ p, Event.callInsertPrediction p ∈ (PredictHandler req w).2 →
      p.customerID = cid)
    ∧ (∃ t1 t2 d, (PredictHandler req w).2
          = t1 ++ Event.callInsertFeedback d :: t2
        ∧ (∀ p, Event.callInsertPrediction p ∉ t1)
        ∧ (∃ p, Event.callInsertPrediction p ∈ t2 ∧ p.customerID = cid))
    ∧ (∀ db, refIntact db → refIntact (runTrace w db (PredictHandler req w).2))
    ∧ (∀ db fid, refIntact db → refIntact (deleteFeedbackCascade db fid)) := by
  have htr := handler_success_trace req w nls cid h1 h2 h3
  have hnopredE1 : ∀ p, Event.callInsertPrediction p
      ∉ (GetSentimentFromHF req.feedbackText w.sentimentOutcome).2 := by
    intro p hp
    rcases sentiment_events req.feedbackText w.sentimentOutcome with he | he <;>
      rw [he] at hp <;> simp at hp
  have hnopredE2 : ∀ p, Event.callInsertPrediction p
      ∉ (GetTopicsFromHF req.feedbackText candidateTopics w.topicsOutcome).2 := by
    intro p hp
    rcases topics_events req.feedbackText candidateTopics w.topicsOutcome
        with he | he <;>
      rw [he] at hp <;> simp at hp
  refine ⟨?_, ?_, ?_, ?_⟩
  · intro p hp
    rw [htr] at hp
    rcases List.mem_append.mp hp with hp | hp
    · rcases List.mem_append.mp hp with hp | hp
      · exact absurd hp (hnopredE1 p)
      · exact absurd hp (hnopredE2 p)
    · simp at hp
      rw [hp]
  · refine ⟨(GetSentimentFromHF req.feedbackText w.sentimentOutcome).2
        ++ (GetTopicsFromHF req.feedbackText candidateTopics w.topicsOutcome).2,
      [Event.scoreStep { handlerCustomerData req w nls with id := cid },
       Event.callInsertPrediction
         { PredictChurn { handlerCustomerData req w nls with id := cid }
             with customerID := cid }],
      handlerCustomerData req w nls, ?_, ?_, ?_⟩
    · rw [htr, List.append_assoc]
    · intro p hp
      rcases List.mem_append.mp hp with hp | hp
      · exact hnopredE1 p hp
      · exact hnopredE2 p hp
    · exact ⟨{ PredictChurn { handlerCustomerData req w nls with id := cid }
          with customerID := cid }, by simp, rfl⟩
  · intro db hdb
    rw [runTrace_success req w nls cid h1 h2 h3 db]
    cases hpi : w.predictionInsert with
    | false =>
      intro q hq
      simp only [hpi, Bool.false_eq_true, if_false, List.append_nil] at hq
      show q.customerID ∈ db.feedbackIDs ++ [cid]
      exact List.mem_append_left _ (hdb q hq)
    | true =>
      intro q hq
      simp only [hpi, if_true, List.mem_append] at hq
      show q.customerID ∈ db.feedbackIDs ++ [cid]
      rcases hq with hq2 | hq2
      · exact List.mem_append_left _ (hdb q hq2)
      · simp only [List.mem_singleton] at hq2
        rw [hq2]
        exact List.mem_append_right _ (by simp)
  · intro db fid hdb q hq
    simp only [deleteFeedbackCascade, List.mem_filter,
      decide_eq_true_eq] at hq ⊢
    exact ⟨hdb q hq.1, hq.2⟩

/-- Witness for C3: replaying a concrete successful request on the empty
store keeps referential integrity. -/
theorem C3_witness :
    refIntact (runTrace ⟨.apiError, .apiError, some ("f1".toList), true⟩
      ⟨[], []⟩
      (PredictHandler ⟨some 5, ("ok".toList)⟩
        ⟨.apiError, .apiError, some ("f1".toList), true⟩).2) :=
  (C3_parent_link ⟨some 5, ("ok".toList)⟩
      ⟨.apiError, .apiError, some ("f1".toList), true⟩ 5 ("f1".toList)
      rfl (by decide) rfl).2.2.1 ⟨[], []⟩
    (fun p hp => absurd hp (List.not_mem_nil p))

/-- Claim C8: when the prediction insert fails after a successful feedback
insert, the caller receives 500 with the message Failed to store churn
prediction; a feedback insert was issued; no compensating delete is ever
issued; and replaying the trace leaves the feedback row persisted while
adding no prediction row. -/
theorem C8_prediction_failure (req : ApiPredictRequest) (w : World)
    (nls : Int) (cid : List Char) (h1 : req.nlsScore = some nls)
    (h2 : ¬ (nls < 0 ∨ 10 < nls)) (h3 : w.feedbackInsert = some cid)
    (h4 : w.predictionInsert = false) :
    (PredictHandler req w).1
        = .err 500 ("Failed to store churn prediction.".toList)
    ∧ (∃ d, Event.callInsertFeedback d ∈ (PredictHandler req w).2)
    ∧ (∀ fid, Event.callDeleteFeedback fid ∉ (PredictHandler req w).2)
    ∧ (∀ db, (runTrace w db (PredictHandler req w).2).feedbackIDs
          = db.feedbackIDs ++ [cid]
        ∧ (runTrace w db (PredictHandler req w).2).predictions
          = db.predictions) := by
  have htr := handler_success_trace req w nls cid h1 h2 h3
  refine ⟨?_, ?_, ?_, ?_⟩
  · obtain ⟨ns, fb⟩ := req
    obtain ⟨so, tpo, fi, pi⟩ := w
    simp only at h1 h3 h4
    subst h1
    subst h3
    subst h4
    simp [PredictHandler, handlerTail, h2]
  · exact ⟨handlerCustomerData req w nls, by rw [htr]; simp⟩
  · intro fid hmem
    have hok := handler_events req w _ hmem
    simp [eventOk] at hok
  · intro db
    rw [runTrace_success req w nls cid h1 h2 h3 db]
    simp [h4]

/-- Witness for C8 at a concrete request whose prediction insert fails. -/
theorem C8_witness :
    (PredictHandler ⟨some 3, ("bad".toList)⟩
        ⟨.apiError, .apiError, some ("f1".toList), false⟩).1
      = .err 500 ("Failed to store churn prediction.".toList) :=
  (C8_prediction_failure ⟨some 3, ("bad".toList)⟩
      ⟨.apiError, .apiError, some ("f1".toList), false⟩ 3 ("f1".toList)
      rfl (by decide) rfl rfl).1

/-- On an error flag from the topics query the handler's topic value is the
empty set. -/
theorem topics_error_empty (text : List Char) (cands : List (List Char))
    (o : TopicsOutcome) (hcands : cands ≠ [])
    (ht : (GetTopicsFromHF text cands o).1.2 = true) :
    (GetTopicsFromHF text cands o).1 = ([], true) := by
  by_cases hb : goIsBlank text
  · exfalso
    revert ht
    simp [GetTopicsFromHF, hb]
  · cases o with
    | apiError => simp [GetTopicsFromHF, hb, hcands]
    | badJson => simp [GetTopicsFromHF, hb, hcands]
    | parsed labels scores =>
      exfalso
      revert ht
      simp [GetTopicsFromHF, hb, hcands]

/-- Claim C4: failure of either enrichment sub-operation never aborts a
request with a valid rating ─ the handler behaves exactly as it would had
both inference calls succeeded with the degraded values (sentiment UNKNOWN,
empty topic set), and the feedback insert is still issued with those degraded
values. -/
theorem C4_enrichment_degrades (req : ApiPredictRequest) (w : World)
    (nls : Int) (h1 : req.nlsScore = some nls) (h2 : ¬ (nls < 0 ∨ 10 < nls))
    (hb : goIsBlank req.feedbackText = false)
    (hs : (GetSentimentFromHF req.feedbackText w.sentimentOutcome).1.2 = true)
    (ht : (GetTopicsFromHF req.feedbackText candidateTopics
        w.topicsOutcome).1.2 = true) :
    PredictHandler req w
      = PredictHandler req
          { w with sentimentOutcome := .parsed [[(("UNKNOWN".toList), 1)]],
                   topicsOutcome := .parsed [] [] }
    ∧ (∃ d, Event.callInsertFeedback d ∈ (PredictHandler req w).2
        ∧ d.commentSentiment = ("UNKNOWN".toList) ∧ d.commentTopics = []) := by
  obtain ⟨ns, fb⟩ := req
  obtain ⟨so, tpo, fi, pi⟩ := w
  simp only at h1 hb hs ht
  subst h1
  have htv : (GetTopicsFromHF fb candidateTopics tpo).1 = ([], true) :=
    topics_error_empty fb candidateTopics tpo (by simp [candidateTopics]) ht
  have hse : (GetSentimentFromHF fb so).2 = [Event.callSentiment fb] := by
    simp [GetSentimentFromHF, hb]
  have hsw : GetSentimentFromHF fb (.parsed [[(("UNKNOWN".toList), 1)]])
      = ((("UNKNOWN".toList), false), [Event.callSentiment fb]) := by
    simp [GetSentimentFromHF, hb, selLoop, show (0 : ℚ) < 1 by norm_num]
  have htw : GetTopicsFromHF fb candidateTopics (.parsed [] [])
      = (([], false), [Event.callTopics fb candidateTopics]) := by
    simp [GetTopicsFromHF, hb, candidateTopics]
  have hte : (GetTopicsFromHF fb candidateTopics tpo).2
      = [Event.callTopics fb candidateTopics] := by
    simp [GetTopicsFromHF, hb, candidateTopics]
  constructor
  · show PredictHandler ⟨some nls, fb⟩ ⟨so, tpo, fi, pi⟩
      = PredictHandler ⟨some nls, fb⟩
          ⟨.parsed [[(("UNKNOWN".toList), 1)]], .parsed [] [], fi, pi⟩
    simp only [PredictHandler]
    rw [if_neg h2, if_neg h2, if_pos hs, hsw, htv, htw, hse, hte]
    rfl
  · refine ⟨⟨[], nls, fb, ("UNKNOWN".toList), []⟩, ?_, rfl, rfl⟩
    cases fi <;> cases pi <;>
      simp [PredictHandler, handlerTail, h2, hs, htv, hse, hte, hb]

/-- Witness for C4: a request whose two inference calls both fail behaves
exactly like one whose calls succeeded with the degraded values. -/
theorem C4_witness :
    PredictHandler ⟨some 4, ("meh".toList)⟩
        ⟨.apiError, .apiError, some ("f1".toList), true⟩
      = PredictHandler ⟨some 4, ("meh".toList)⟩
          ⟨.parsed [[(("UNKNOWN".toList), 1)]], .parsed [] [],
           some ("f1".toList), true⟩ :=
  (C4_enrichment_degrades ⟨some 4, ("meh".toList)⟩
      ⟨.apiError, .apiError, some ("f1".toList), true⟩ 4 rfl (by decide)
      (by decide) (by decide) (by decide)).1
